import Mathlib

/-!
Shallow embedding of the quickynab CSV-import core:
the CSV dialect parsers (`parseBank2YnabCSV`, `parseYnabCSV`), the date
normalizer (`parseDate`, `autoDetectDate`), the dialect matcher
(`findMatchingConfig`), and the two deduplication-key generators
(`generateImportId`, content-stable, and `generateImportIdAccount`,
account-scoped).

Modelling conventions:
- JavaScript strings are Lean `String`s (the inputs of interest are ASCII,
  where UTF-16 code units and code points agree).
- JavaScript numbers are modelled as `ℚ`; every number arising in the code
  comes from `parseFloat` of a decimal token, and the arithmetic performed
  on them (subtraction, scaling by 1000, rounding) is exact on the decimal
  values appearing in the claims.
- `undefined`/`null`/missing values are `Option`, with JavaScript
  truthiness made explicit (`""` is falsy).
- Fallible code returns `Except String`.
-/

/-- JavaScript truthiness of an optional string: `undefined`, `null` and
`""` are falsy. -/
def jsTruthyS (o : Option String) : Bool :=
  match o with
  | none => false
  | some s => s ≠ ""

/-- Models `a || d` for an optional string `a` and a default string `d`. -/
def strOrD (o : Option String) (d : String) : String :=
  match o with
  | none => d
  | some s => if s = "" then d else s

/-- Models `a || null`: an empty string collapses to `null`. -/
def jsOrNull (o : Option String) : Option String :=
  if jsTruthyS o then o else none

/-- Models `a || b || null`: first truthy value of two optional strings. -/
def jsOrChain (a b : Option String) : Option String :=
  if jsTruthyS a then a else jsOrNull b

/-- Whitespace as trimmed by JavaScript `String.prototype.trim` (the code
points relevant to the sources: space, tab, LF, CR, VT, FF, NBSP). -/
def isJsWhitespace (c : Char) : Bool :=
  c = ' ' ∨ c = '\t' ∨ c = '\n' ∨ c = '\r' ∨
  c = Char.ofNat 0x0B ∨ c = Char.ofNat 0x0C ∨ c = Char.ofNat 0xA0

/-- Trim on character lists: drop leading and trailing whitespace. -/
def jsTrimList (cs : List Char) : List Char :=
  ((cs.dropWhile isJsWhitespace).reverse.dropWhile isJsWhitespace).reverse

/-- Models JavaScript `s.trim()`. -/
def jsTrim (s : String) : String :=
  String.mk (jsTrimList s.data)

/-- Numeric value of a decimal digit character. -/
def digitVal (c : Char) : ℕ := c.toNat - 48

/-- Value of a list of decimal digit characters. -/
def digitsToNat (cs : List Char) : ℕ :=
  cs.foldl (fun a c => a * 10 + digitVal c) 0

/-- Models JavaScript `parseFloat`: skip leading whitespace, optional sign,
then the longest prefix of the form `digits[.digits][e[sign]digits]` (a
mantissa needs at least one digit); trailing garbage is ignored. `none`
models `NaN` (no valid numeric prefix). `Infinity` tokens, which never
arise from the CSV fields of interest, are not modelled. -/
def jsParseFloat (s : String) : Option ℚ :=
  let cs := s.data.dropWhile isJsWhitespace
  let (sgn, cs) : ℚ × List Char :=
    match cs with
    | '-' :: rest => (-1, rest)
    | '+' :: rest => (1, rest)
    | rest => (1, rest)
  let intDigits := cs.takeWhile Char.isDigit
  let cs := cs.drop intDigits.length
  let (fracDigits, cs) : List Char × List Char :=
    match cs with
    | '.' :: rest => (rest.takeWhile Char.isDigit, rest.drop (rest.takeWhile Char.isDigit).length)
    | rest => ([], rest)
  if intDigits = [] ∧ fracDigits = [] then
    none
  else
    let mantissa : ℚ := sgn * ((digitsToNat (intDigits ++ fracDigits) : ℚ) / (10 : ℚ) ^ fracDigits.length)
    let expVal : ℤ :=
      match cs with
      | 'e' :: rest => expPart rest
      | 'E' :: rest => expPart rest
      | _ => 0
    some (mantissa * (10 : ℚ) ^ expVal)
where
  /-- Exponent suffix: optional sign then at least one digit, else 0. -/
  expPart (rest : List Char) : ℤ :=
    let (esgn, rest) : ℤ × List Char :=
      match rest with
      | '-' :: r => (-1, r)
      | '+' :: r => (1, r)
      | r => (1, r)
    let eDigits := rest.takeWhile Char.isDigit
    if eDigits = [] then 0 else esgn * (digitsToNat eDigits : ℤ)

/-- Models `parseFloat(x) || 0`: `NaN` collapses to 0. -/
def parseFloatOr0 (s : String) : ℚ :=
  (jsParseFloat s).getD 0

/-- The control characters stripped by `sanitizeString`:
0x00–0x08, 0x0B, 0x0C, 0x0E–0x1F, 0x7F (the regex character class
in `src/lib/parsers/bank2ynab-generic.ts`). -/
def isStrippedControl (c : Char) : Bool :=
  c.toNat ≤ 8 ∨ c.toNat = 0x0B ∨ c.toNat = 0x0C ∨
  (0x0E ≤ c.toNat ∧ c.toNat ≤ 0x1F) ∨ c.toNat = 0x7F

/-- Embeds `sanitizeString` from `src/lib/parsers/bank2ynab-generic.ts`:
falsy input gives `null`; else strip the control characters, trim,
truncate to `maxLength` characters, and collapse an empty result
to `null`. -/
def sanitizeString (str : Option String) (maxLength : ℕ := 200) : Option String :=
  match str with
  | none => none
  | some s =>
    if s = "" then none
    else
      let cleaned := String.mk (s.data.filter (fun c => ¬ isStrippedControl c))
      let cleaned := jsTrim cleaned
      let cleaned :=
        if cleaned.length > maxLength then String.mk (cleaned.data.take maxLength) else cleaned
      if cleaned = "" then none else some cleaned

/-- Shape test for the regex `/^\d{4}-\d{2}-\d{2}$/`. -/
def isIsoDate (s : String) : Bool :=
  match s.data with
  | [y1, y2, y3, y4, '-', m1, m2, '-', d1, d2] =>
    y1.isDigit ∧ y2.isDigit ∧ y3.isDigit ∧ y4.isDigit ∧
    m1.isDigit ∧ m2.isDigit ∧ d1.isDigit ∧ d2.isDigit
  | _ => false

/-- Capture groups of `/^(\d{4})-(\d{2})-(\d{2})$/`. -/
def matchIsoGroups (s : String) : Option (String × String × String) :=
  match s.data with
  | [y1, y2, y3, y4, '-', m1, m2, '-', d1, d2] =>
    if y1.isDigit ∧ y2.isDigit ∧ y3.isDigit ∧ y4.isDigit ∧
       m1.isDigit ∧ m2.isDigit ∧ d1.isDigit ∧ d2.isDigit then
      some (String.mk [y1, y2, y3, y4], String.mk [m1, m2], String.mk [d1, d2])
    else none
  | _ => none

/-- Capture groups of `/^(\d{2})SEP(\d{2})SEP(\d{4})$/` for a fixed
separator character (used for `%d.%m.%Y` and the two slash formats). -/
def matchSep22_4 (sep : Char) (s : String) : Option (String × String × String) :=
  match s.data with
  | [a1, a2, c1, b1, b2, c2, y1, y2, y3, y4] =>
    if c1 = sep ∧ c2 = sep ∧
       a1.isDigit ∧ a2.isDigit ∧ b1.isDigit ∧ b2.isDigit ∧
       y1.isDigit ∧ y2.isDigit ∧ y3.isDigit ∧ y4.isDigit then
      some (String.mk [a1, a2], String.mk [b1, b2], String.mk [y1, y2, y3, y4])
    else none
  | _ => none

/-- Capture groups of `/^(\d{2})[\.\/](\d{2})[\.\/](\d{4})$/` (the two
separators may differ, as in the source regex). -/
def matchSep22_4Mixed (s : String) : Option (String × String × String) :=
  match s.data with
  | [a1, a2, c1, b1, b2, c2, y1, y2, y3, y4] =>
    if (c1 = '.' ∨ c1 = '/') ∧ (c2 = '.' ∨ c2 = '/') ∧
       a1.isDigit ∧ a2.isDigit ∧ b1.isDigit ∧ b2.isDigit ∧
       y1.isDigit ∧ y2.isDigit ∧ y3.isDigit ∧ y4.isDigit then
      some (String.mk [a1, a2], String.mk [b1, b2], String.mk [y1, y2, y3, y4])
    else none
  | _ => none

/-- Capture groups of `/^(\d{4})(\d{2})(\d{2})$/`. -/
def matchYYYYMMDDGroups (s : String) : Option (String × String × String) :=
  match s.data with
  | [y1, y2, y3, y4, m1, m2, d1, d2] =>
    if y1.isDigit ∧ y2.isDigit ∧ y3.isDigit ∧ y4.isDigit ∧
       m1.isDigit ∧ m2.isDigit ∧ d1.isDigit ∧ d2.isDigit then
      some (String.mk [y1, y2, y3, y4], String.mk [m1, m2], String.mk [d1, d2])
    else none
  | _ => none

/-- Split a character list at every occurrence of a separator character. -/
def splitOnChar (sep : Char) : List Char → List (List Char)
  | [] => [[]]
  | c :: rest =>
    let r := splitOnChar sep rest
    if c = sep then [] :: r
    else
      match r with
      | [] => [[c]]
      | h :: t => (c :: h) :: t

/-- Capture groups of `/^(\d{1,2})\/(\d{1,2})\/(\d{4})$/`. -/
def matchMD12Y (s : String) : Option (String × String × String) :=
  match splitOnChar '/' s.data with
  | [p1, p2, p3] =>
    if (p1.length = 1 ∨ p1.length = 2) ∧ p1.all Char.isDigit ∧
       (p2.length = 1 ∨ p2.length = 2) ∧ p2.all Char.isDigit ∧
       p3.length = 4 ∧ p3.all Char.isDigit then
      some (String.mk p1, String.mk p2, String.mk p3)
    else none
  | _ => none

/-- Models `s.padStart(2, '0')`. -/
def padStart2 (s : String) : String :=
  if s.length = 1 then "0" ++ s else s

/-- Embeds `autoDetectDate` from `src/lib/parsers/bank2ynab-generic.ts`:
heuristic detection trying ISO, `DD.MM.YYYY`/`DD/MM/YYYY` (mixed
separators allowed by the source regex), `M/D/YYYY` with zero-padding,
then bare `YYYYMMDD`; otherwise the token is returned unchanged. -/
def autoDetectDate (dateStr : String) : String :=
  if isIsoDate dateStr then dateStr
  else
    match matchSep22_4Mixed dateStr with
    | some (d, m, y) => y ++ "-" ++ m ++ "-" ++ d
    | none =>
      match matchMD12Y dateStr with
      | some (m, d, y) => y ++ "-" ++ padStart2 m ++ "-" ++ padStart2 d
      | none =>
        match matchYYYYMMDDGroups dateStr with
        | some (y, m, d) => y ++ "-" ++ m ++ "-" ++ d
        | none => dateStr

/-- The per-format positional transforms of `parseDate` (the `formats`
table and the subsequent rebuild): `none` when the token does not
structurally match the hint's regex or the hint is unknown. -/
def applyFormat (fmt : String) (dateStr : String) : Option String :=
  if fmt = "%Y-%m-%d" then
    (matchIsoGroups dateStr).map (fun (y, m, d) => y ++ "-" ++ m ++ "-" ++ d)
  else if fmt = "%d.%m.%Y" then
    (matchSep22_4 '.' dateStr).map (fun (d, m, y) => y ++ "-" ++ m ++ "-" ++ d)
  else if fmt = "%d/%m/%Y" then
    (matchSep22_4 '/' dateStr).map (fun (d, m, y) => y ++ "-" ++ m ++ "-" ++ d)
  else if fmt = "%m/%d/%Y" then
    (matchSep22_4 '/' dateStr).map (fun (m, d, y) => y ++ "-" ++ m ++ "-" ++ d)
  else if fmt = "%Y%m%d" then
    (matchYYYYMMDDGroups dateStr).map (fun (y, m, d) => y ++ "-" ++ m ++ "-" ++ d)
  else none

/-- Embeds `parseDate` from `src/lib/parsers/bank2ynab-generic.ts`:
empty token gives `""`; an already-ISO token is returned unchanged
(before the hint is consulted); a falsy hint falls to heuristic
detection; a hint whose pattern does not match also falls to heuristic
detection. -/
def parseDate (dateStr : String) (formatStr : Option String := none) : String :=
  if dateStr = "" then ""
  else if isIsoDate dateStr then dateStr
  else if ¬ jsTruthyS formatStr then autoDetectDate dateStr
  else
    match applyFormat (formatStr.getD "") dateStr with
    | some r => r
    | none => autoDetectDate dateStr

/-!
## CSV parsing (model of the `csv-parse/sync` collaborator)

Both call sites use `skip_empty_lines: true` and `trim: true`, with
double-quote quoting and escaping, so those options are baked in.
The record delimiters of interest are LF and CRLF; a CR character is
dropped. `trim` trims unquoted fields only. Empty physical lines
produce no record.
-/

/-- Scanner state for the CSV field/record splitter.  `inQ`: currently
inside a quoted section; `afterQ`: the previous character was a quote
inside a quoted section (possible escape); `q`: the current field used
quoting; `rcd`: fields of the current record; `acc`: finished records. -/
structure CsvSt where
  inQ : Bool := false
  afterQ : Bool := false
  field : List Char := []
  q : Bool := false
  rcd : List (String × Bool) := []
  acc : List (List (String × Bool)) := []
deriving Repr

/-- One unquoted-mode character transition. -/
def csvStepNormal (delim : Char) (st : CsvSt) (c : Char) : CsvSt :=
  if c = delim then
    { st with field := [], q := false, rcd := st.rcd ++ [(String.mk st.field, st.q)] }
  else if c = '\n' then
    let rcd2 := st.rcd ++ [(String.mk st.field, st.q)]
    { st with
      field := []
      q := false
      rcd := []
      acc := if rcd2 = [("", false)] then st.acc else st.acc ++ [rcd2] }
  else if c = '\r' then st
  else if c = '"' ∧ st.field = [] ∧ ¬ st.q then
    { st with inQ := true, q := true }
  else { st with field := st.field ++ [c] }

/-- One character transition of the CSV scanner. -/
def csvStep (delim : Char) (st : CsvSt) (c : Char) : CsvSt :=
  if st.inQ then
    if st.afterQ then
      -- previous char was a quote inside quoting: '""' is an escaped quote,
      -- anything else closed the quoted section and is processed normally
      if c = '"' then { st with afterQ := false, field := st.field ++ ['"'] }
      else csvStepNormal delim { st with inQ := false, afterQ := false } c
    else if c = '"' then { st with afterQ := true }
    else { st with field := st.field ++ [c] }
  else csvStepNormal delim st c

/-- Split CSV content into records of `(field, wasQuoted)` pairs. -/
def csvRecords (delim : Char) (content : String) : List (List (String × Bool)) :=
  let st := content.data.foldl (csvStep delim) {}
  if st.field = [] ∧ ¬ st.q ∧ st.rcd = [] then st.acc
  else st.acc ++ [st.rcd ++ [(String.mk st.field, st.q)]]

/-- CSV rows with `trim: true` applied (unquoted fields trimmed). -/
def csvRows (delim : Char) (content : String) : List (List String) :=
  (csvRecords delim content).map (fun rcd =>
    rcd.map (fun fq => if fq.2 then fq.1 else jsTrim fq.1))

/-- The canonical normalized transaction record (`Transaction` in
`src/lib/types.ts`): ISO date, optional payee/category/memo, signed
amount. -/
structure Transaction where
  date : String
  payee_name : Option String
  category_name : Option String
  memo : Option String
  amount : ℚ
deriving Repr, DecidableEq

/-- A bank dialect descriptor (`Bank2YnabConfig` in
`src/lib/parsers/bank2ynab-fetcher.ts`): filename pattern with a
regex/substring flag, delimiter, boundary row counts, positional column
mapping and optional date format hint. -/
structure BankConfig where
  name : String := ""
  pattern : String := ""
  useRegex : Bool := false
  delimiter : Option String := none
  headerRows : Option ℕ := none
  footerRows : Option ℕ := none
  columns : Option (List String) := none
  dateFormat : Option String := none
deriving Repr, DecidableEq

/-- JavaScript object property assignment on a string-keyed record:
overwrite an existing key, else append. -/
def setField (m : List (String × String)) (k v : String) : List (String × String) :=
  match m with
  | [] => [(k, v)]
  | (k0, v0) :: rest => if k0 = k then (k, v) :: rest else (k0, v0) :: setField rest k v

/-- Property lookup on a string-keyed record (`undefined` is `none`). -/
def jsGet (m : List (String × String)) (k : String) : Option String :=
  match m with
  | [] => none
  | (k0, v) :: rest => if k0 = k then some v else jsGet rest k

/-- Embeds the `columnMapping.forEach` of `parseBank2YnabCSV`: walk the
mapping positionally against the row, assigning
`transaction[field] = row[colIndex]` when the field name is truthy, not
the `skip` sentinel, and the physical column exists. -/
def buildRawTx (columnMapping : List String) (row : List String) : List (String × String) :=
  (columnMapping.enum).foldl
    (fun m fi =>
      if fi.2 ≠ "" ∧ fi.2 ≠ "skip" ∧ fi.1 < row.length then
        setField m fi.2 (row.getD fi.1 "")
      else m)
    []

/-- Embeds the amount computation of `parseBank2YnabCSV`: when `Inflow`
or `Outflow` is truthy, `inflow - outflow` (with falsy sides defaulting
to `'0'` and `NaN` collapsing to 0); else a truthy `Amount` column is
parsed directly; else 0. -/
def computeAmount (tx : List (String × String)) : ℚ :=
  if jsTruthyS (jsGet tx "Inflow") ∨ jsTruthyS (jsGet tx "Outflow") then
    parseFloatOr0 (strOrD (jsGet tx "Inflow") "0") - parseFloatOr0 (strOrD (jsGet tx "Outflow") "0")
  else if jsTruthyS (jsGet tx "Amount") then
    parseFloatOr0 ((jsGet tx "Amount").getD "")
  else 0

/-- One row of the matched-dialect record normalizer (the body of the
`records.map` in `parseBank2YnabCSV`). -/
def normalizeRow (columnMapping : List String) (dateFormat : Option String)
    (row : List String) : Transaction :=
  let tx := buildRawTx columnMapping row
  { date := parseDate (strOrD (jsGet tx "Date") "") dateFormat
    payee_name := sanitizeString (jsOrChain (jsGet tx "Payee") (jsGet tx "Description")) 200
    category_name := none
    memo := sanitizeString (jsOrChain (jsGet tx "Memo") (jsGet tx "Subject")) 100
    amount := computeAmount tx }

/-- Join lines with LF. -/
def joinLines (l : List String) : String :=
  match l with
  | [] => ""
  | h :: t => t.foldl (fun a s => a ++ "\n" ++ s) h

/-- Embeds `parseBank2YnabCSV` from `src/lib/parsers/bank2ynab-generic.ts`
(taking the file content in place of the file path): split into lines,
drop `headerRows` from the start and `footerRows` from the end, parse the
remainder with the dialect's delimiter, normalize each row, and keep only
rows whose date is non-empty. -/
def parseBank2YnabCSV (fileContent : String) (bankConfig : BankConfig) : List Transaction :=
  let lines := (splitOnChar '\n' fileContent.data).map String.mk
  let headerRows := bankConfig.headerRows.getD 0
  let footerRows := bankConfig.footerRows.getD 0
  let dataLines := (lines.take (lines.length - footerRows)).drop headerRows
  let delim := (strOrD bankConfig.delimiter ",").data.headD ','
  let records := csvRows delim (joinLines dataLines)
  let columnMapping := bankConfig.columns.getD []
  (records.map (normalizeRow columnMapping bankConfig.dateFormat)).filter
    (fun t => t.date ≠ "")

/-- Embeds `parseAmount` from the YNAB-format parser: falsy, `''` or
`'0'` gives 0; else strip every character outside `[0-9.-]` and parse,
with `NaN` collapsing to 0. -/
def parseAmount (amountStr : Option String) : ℚ :=
  match amountStr with
  | none => 0
  | some s =>
    if s = "" ∨ s = "0" then 0
    else
      let cleaned := String.mk (s.data.filter (fun c => c.isDigit ∨ c = '.' ∨ c = '-'))
      match jsParseFloat cleaned with
      | none => 0
      | some q => q

/-- Models `csv-parse` with `columns: true`: the first record names the
columns and each further record becomes a key/value association; a record
whose field count differs from the header raises (no
`relax_column_count` at this call site). -/
def csvParseWithHeader (content : String) : Except String (List (List (String × String))) :=
  match csvRows ',' content with
  | [] => Except.ok []
  | header :: rows =>
    rows.mapM (fun r =>
      if r.length = header.length then Except.ok (header.zip r)
      else Except.error "Invalid Record Length")

/-- Embeds `parseYnabCSV` from the converter (taking the file content in
place of the file path): header-driven parsing, a fatal error when there
are no data rows, `amount = inflow - outflow`, a fatal error for a falsy
`Date` field, and `|| null` collapsing for payee/category/memo (note:
no sanitization on this path). -/
def parseYnabCSV (fileContent : String) : Except String (List Transaction) := do
  let records ← csvParseWithHeader fileContent
  if records.length = 0 then
    throw "CSV file contains no data rows"
  records.mapM (fun row => do
    let outflow := parseAmount (jsGet row "Outflow")
    let inflow := parseAmount (jsGet row "Inflow")
    let amount := inflow - outflow
    if ¬ jsTruthyS (jsGet row "Date") then
      throw "Date is required"
    pure
      { date := (jsGet row "Date").getD ""
        payee_name := jsOrNull (jsGet row "Payee")
        category_name := jsOrNull (jsGet row "Category")
        memo := jsOrNull (jsGet row "Memo")
        amount := amount })

/-!
## Dialect matcher (`findMatchingConfig`) and its regex collaborator

`findMatchingConfig` iterates the registry in load order; `useRegex`
descriptors are tested by compiling `pattern` as a JavaScript regular
expression inside a `try` block (a compilation failure is caught and
treated as no match), other descriptors by substring containment.

The `RegExp` collaborator is modelled by a derivative-based matcher for
the fragment exercised by the descriptors: literals, `.`, character
classes (with ranges, negation and the `\d \D \w \W \s \S` escapes),
grouping, alternation, the `* + ?` quantifiers, and `^`/`$` anchors at
the pattern ends.  An unparsable pattern (e.g. an unterminated class or
group, or a dangling quantifier) models a `SyntaxError` on compilation.
-/

/-- Regular-expression abstract syntax: the empty word, a character
class (list of inclusive ranges, possibly negated — a literal is a
singleton range, `.` a negated newline class), concatenation,
alternation, and Kleene star. -/
inductive RE where
  | eps : RE
  | cls : List (Char × Char) → Bool → RE
  | cat : RE → RE → RE
  | alt : RE → RE → RE
  | star : RE → RE
deriving Repr, DecidableEq

/-- Does the class accept the character? -/
def clsMatches (ranges : List (Char × Char)) (neg : Bool) (c : Char) : Bool :=
  let inR := ranges.any (fun r => r.1 ≤ c ∧ c ≤ r.2)
  if neg then !inR else inR

/-- Does the regex accept the empty word? -/
def RE.nullable : RE → Bool
  | .eps => true
  | .cls _ _ => false
  | .cat a b => a.nullable && b.nullable
  | .alt a b => a.nullable || b.nullable
  | .star _ => true

/-- Brzozowski derivative by one character (`cls [] false` is the empty
language). -/
def RE.deriv (c : Char) : RE → RE
  | .eps => .cls [] false
  | .cls rs n => if clsMatches rs n c then .eps else .cls [] false
  | .cat a b =>
    if a.nullable then .alt (.cat (a.deriv c) b) (b.deriv c) else .cat (a.deriv c) b
  | .alt a b => .alt (a.deriv c) (b.deriv c)
  | .star a => .cat (a.deriv c) (.star a)

/-- Does the regex accept the whole word? -/
def reFullMatch (r : RE) (cs : List Char) : Bool :=
  (cs.foldl (fun a c => a.deriv c) r).nullable

/-- Does the regex accept some prefix of the word? -/
def reMatchSomePre : RE → List Char → Bool
  | r, [] => r.nullable
  | r, c :: rest => r.nullable || reMatchSomePre (r.deriv c) rest

/-- Match starting at the current position, to the end when
end-anchored and to any position otherwise. -/
def reSearchFrom (endAnchor : Bool) (r : RE) (cs : List Char) : Bool :=
  if endAnchor then reFullMatch r cs else reMatchSomePre r cs

/-- Unanchored search: try every start position. -/
def reSearch (endAnchor : Bool) : RE → List Char → Bool
  | r, [] => reSearchFrom endAnchor r []
  | r, c :: rest => reSearchFrom endAnchor r (c :: rest) || reSearch endAnchor r rest

/-- A compiled JavaScript regex: start/end anchoring plus the core. -/
structure JsRegex where
  anchorStart : Bool
  anchorEnd : Bool
  re : RE
deriving Repr, DecidableEq

/-- Models `regex.test(s)`. -/
def regexTest (p : JsRegex) (s : String) : Bool :=
  if p.anchorStart then reSearchFrom p.anchorEnd p.re s.data
  else reSearch p.anchorEnd p.re s.data

/-- Ranges denoted by an escape character after a backslash
(class escapes expand to ranges; other characters escape to
themselves). -/
def escapeRanges (c : Char) : List (Char × Char) × Bool :=
  if c = 'd' then ([('0', '9')], false)
  else if c = 'D' then ([('0', '9')], true)
  else if c = 'w' then ([('0', '9'), ('A', 'Z'), ('a', 'z'), ('_', '_')], false)
  else if c = 'W' then ([('0', '9'), ('A', 'Z'), ('a', 'z'), ('_', '_')], true)
  else if c = 's' then
    ([(' ', ' '), ('\t', '\t'), ('\n', '\n'), ('\r', '\r'),
      (Char.ofNat 0x0B, Char.ofNat 0x0C), (Char.ofNat 0xA0, Char.ofNat 0xA0)], false)
  else if c = 'S' then
    ([(' ', ' '), ('\t', '\t'), ('\n', '\n'), ('\r', '\r'),
      (Char.ofNat 0x0B, Char.ofNat 0x0C), (Char.ofNat 0xA0, Char.ofNat 0xA0)], true)
  else if c = 'n' then ([('\n', '\n')], false)
  else if c = 't' then ([('\t', '\t')], false)
  else if c = 'r' then ([('\r', '\r')], false)
  else ([(c, c)], false)

/-- Parse the items of a character class up to the closing `]`;
`none` models the `SyntaxError` of an unterminated class. -/
def parseClassItems (fuel : ℕ) (cs : List Char) (acc : List (Char × Char)) :
    Option (List (Char × Char) × List Char) :=
  match fuel with
  | 0 => none
  | fuel + 1 =>
    match cs with
    | [] => none
    | ']' :: rest => some (acc, rest)
    | '\\' :: c :: rest => parseClassItems fuel rest (acc ++ (escapeRanges c).1)
    | a :: '-' :: b :: rest =>
      if b = ']' then some (acc ++ [(a, a), ('-', '-')], rest)
      else parseClassItems fuel rest (acc ++ [(a, b)])
    | a :: rest => parseClassItems fuel rest (acc ++ [(a, a)])

/-- Concatenation of `n` copies of a regex. -/
def reRepeat (r : RE) : ℕ → RE
  | 0 => .eps
  | n + 1 => .cat r (reRepeat r n)

/-- Concatenation of `n` optional copies of a regex. -/
def reOpts (r : RE) : ℕ → RE
  | 0 => .eps
  | n + 1 => .cat (.alt r .eps) (reOpts r n)

/-- Parse the inside of a `{n}`, `{n,}` or `{n,m}` quantifier after the
opening brace; `none` leaves the brace to be read as a literal (as
JavaScript does for a malformed brace). -/
def parseBraceQuant (cs : List Char) : Option (ℕ × Option ℕ × List Char) :=
  let d1 := cs.takeWhile Char.isDigit
  if d1 = [] then none
  else
    match cs.drop d1.length with
    | '}' :: r => some (digitsToNat d1, some (digitsToNat d1), r)
    | ',' :: r =>
      let d2 := r.takeWhile Char.isDigit
      match r.drop d2.length with
      | '}' :: r3 =>
        some (digitsToNat d1, if d2 = [] then none else some (digitsToNat d2), r3)
      | _ => none
    | _ => none

/-- Expand a brace quantifier into repetitions. -/
def expandQuant (r : RE) (lo : ℕ) (hi : Option ℕ) : RE :=
  match hi with
  | none => .cat (reRepeat r lo) (.star r)
  | some h => .cat (reRepeat r lo) (reOpts r (h - lo))

/-- Parser nonterminals for the regex grammar. -/
inductive ReMode where
  | altM : ReMode
  | catM : ReMode
  | repM : ReMode
  | atomM : ReMode
deriving Repr, DecidableEq

/-- Fuel-based recursive-descent parser for the regex fragment:
alternation of concatenations of optionally-quantified atoms, where an
atom is a group, a class, an escape, `.` or a literal.  `none` models a
compilation `SyntaxError` (dangling quantifier, unmatched bracket,
trailing backslash, unsupported lookaround group). -/
def parseRE (fuel : ℕ) (mode : ReMode) (cs : List Char) : Option (RE × List Char) :=
  match fuel with
  | 0 => none
  | fuel + 1 =>
    match mode with
    | .altM =>
      (parseRE fuel .catM cs).bind fun pr =>
        match pr.2 with
        | '|' :: rest2 => (parseRE fuel .altM rest2).map fun pr2 => (.alt pr.1 pr2.1, pr2.2)
        | _ => some pr
    | .catM =>
      match cs with
      | [] => some (.eps, [])
      | ')' :: _ => some (.eps, cs)
      | '|' :: _ => some (.eps, cs)
      | _ =>
        (parseRE fuel .repM cs).bind fun pr =>
          (parseRE fuel .catM pr.2).map fun pr2 => (.cat pr.1 pr2.1, pr2.2)
    | .repM =>
      (parseRE fuel .atomM cs).map fun pr =>
        match pr.2 with
        | '*' :: rest2 => (.star pr.1, rest2)
        | '+' :: rest2 => (.cat pr.1 (.star pr.1), rest2)
        | '?' :: rest2 => (.alt pr.1 .eps, rest2)
        | '{' :: rest2 =>
          match parseBraceQuant rest2 with
          | some q => (expandQuant pr.1 q.1 q.2.1, q.2.2)
          | none => pr
        | _ => pr
    | .atomM =>
      match cs with
      | [] => none
      | '(' :: rest =>
        let rest2 :=
          match rest with
          | '?' :: ':' :: r => some r
          | '?' :: _ => none
          | _ => some rest
        rest2.bind fun r =>
          (parseRE fuel .altM r).bind fun pr =>
            match pr.2 with
            | ')' :: rest4 => some (pr.1, rest4)
            | _ => none
      | '[' :: '^' :: rest =>
        (parseClassItems (rest.length + 1) rest []).map fun pr => (.cls pr.1 true, pr.2)
      | '[' :: rest =>
        (parseClassItems (rest.length + 1) rest []).map fun pr => (.cls pr.1 false, pr.2)
      | '\\' :: c :: rest =>
        some (.cls (escapeRanges c).1 (escapeRanges c).2, rest)
      | '\\' :: [] => none
      | '.' :: rest => some (.cls [('\n', '\n')] true, rest)
      | '*' :: _ => none
      | '+' :: _ => none
      | '?' :: _ => none
      | ')' :: _ => none
      | ']' :: rest => some (.cls [(']', ']')] false, rest)
      | c :: rest => some (.cls [(c, c)] false, rest)

/-- Models `new RegExp(pattern)` for the fragment above: strip a leading
`^` and a trailing unescaped `$` as anchors, parse the rest; `none`
models a compilation `SyntaxError` (the case the matcher catches). -/
def compileRegex (pattern : String) : Option JsRegex :=
  let cs := pattern.data
  let pStart : Bool × List Char :=
    match cs with
    | '^' :: r => (true, r)
    | _ => (false, cs)
  let pEnd : Bool × List Char :=
    match pStart.2.reverse with
    | '$' :: r =>
      if r.head? = some '\\' then (false, pStart.2) else (true, r.reverse)
    | _ => (false, pStart.2)
  match parseRE (8 * pEnd.2.length + 8) .altM pEnd.2 with
  | some (r, []) => some ⟨pStart.1, pEnd.1, r⟩
  | _ => none

/-- Is `sub` a prefix of `l`? -/
def listStartsWith : List Char → List Char → Bool
  | [], _ => true
  | _ :: _, [] => false
  | a :: as_, b :: bs => a = b && listStartsWith as_ bs

/-- Does `l` contain `sub` as a contiguous run? -/
def listHasSub (sub : List Char) : List Char → Bool
  | [] => listStartsWith sub []
  | c :: rest => listStartsWith sub (c :: rest) || listHasSub sub rest

/-- Models `s.includes(sub)`. -/
def strIncludes (s sub : String) : Bool :=
  listHasSub sub.data s.data

/-- Embeds `findMatchingConfig` from
`src/lib/parsers/bank2ynab-fetcher.ts`: iterate the registry entries in
load order; a `useRegex` descriptor whose pattern fails to compile is
treated as a non-match (the `try`/`catch`) and iteration continues;
the first matching descriptor is returned, `none` after exhaustion. -/
def findMatchingConfig (filename : String) :
    List (String × BankConfig) → Option BankConfig
  | [] => none
  | (_, config) :: rest =>
    if config.useRegex then
      match compileRegex config.pattern with
      | none => findMatchingConfig filename rest
      | some r =>
        if regexTest r filename then some config else findMatchingConfig filename rest
    else
      if strIncludes filename config.pattern then some config
      else findMatchingConfig filename rest

/-- The match test applied to a single descriptor (the loop body's
condition, factored for the statements below). -/
def configMatches (filename : String) (config : BankConfig) : Bool :=
  if config.useRegex then
    match compileRegex config.pattern with
    | none => false
    | some r => regexTest r filename
  else strIncludes filename config.pattern

/-!
## Deduplication-key generators

`generateImportId` (the content-stable strategy of the uploader) keys a
transaction by `YNAB:` + milliunit amount + ISO date + an occurrence
number taken from the last 4 hex digits of the SHA-256 of
`payee:memo`.  `generateImportIdAccount` (the account-scoped strategy of
`src/lib/uploader.ts`) keys by an MD5 hex digest of
`accountId:date:amount:payee`, truncated to 32 characters.

SHA-256 (a `node:crypto` collaborator) is implemented in full below over
byte lists, with its round constants derived from integer cube/square
roots of the first primes.  32-bit words are `ℕ` reduced mod `2^32`.
-/

/-- Addition wrapping at 32 bits. -/
def add32 (a b : ℕ) : ℕ := (a + b) % 4294967296

/-- Complement within 32 bits. -/
def not32 (a : ℕ) : ℕ := Nat.xor a 4294967295

/-- Rotate a 32-bit word right by `k`. -/
def rotr32 (x k : ℕ) : ℕ := Nat.lor (x >>> k) (x <<< (32 - k)) % 4294967296

/-- UTF-8 encoding of one code point. -/
def utf8Char (n : ℕ) : List ℕ :=
  if n < 0x80 then [n]
  else if n < 0x800 then
    [Nat.lor 0xC0 (n >>> 6), Nat.lor 0x80 (Nat.land n 0x3F)]
  else if n < 0x10000 then
    [Nat.lor 0xE0 (n >>> 12), Nat.lor 0x80 (Nat.land (n >>> 6) 0x3F),
     Nat.lor 0x80 (Nat.land n 0x3F)]
  else
    [Nat.lor 0xF0 (n >>> 18), Nat.lor 0x80 (Nat.land (n >>> 12) 0x3F),
     Nat.lor 0x80 (Nat.land (n >>> 6) 0x3F), Nat.lor 0x80 (Nat.land n 0x3F)]

/-- UTF-8 bytes of a string (what `crypto.createHash(...).update(str)`
hashes). -/
def utf8Bytes (s : String) : List ℕ :=
  (s.data.map (fun c => utf8Char c.toNat)).flatten

/-- Big-endian bytes of `n`, `k` of them. -/
def beBytes : ℕ → ℕ → List ℕ
  | 0, _ => []
  | k + 1, n => beBytes k (n >>> 8) ++ [n % 256]

/-- SHA-256 message padding: append `0x80`, zero bytes to 56 mod 64,
then the bit length as 8 big-endian bytes. -/
def sha256Pad (msg : List ℕ) : List ℕ :=
  let z := (119 - msg.length % 64) % 64
  msg ++ [0x80] ++ List.replicate z 0 ++ beBytes 8 (8 * msg.length)

/-- Big-endian 32-bit words from bytes. -/
def toWords32 : List ℕ → List ℕ
  | b0 :: b1 :: b2 :: b3 :: rest =>
    (((b0 <<< 8 + b1) <<< 8 + b2) <<< 8 + b3) :: toWords32 rest
  | _ => []

/-- Split a word list into 16-word blocks (fuel keeps this structural). -/
def chunk16 : ℕ → List ℕ → List (List ℕ)
  | 0, _ => []
  | _, [] => []
  | f + 1, ws => ws.take 16 :: chunk16 f (ws.drop 16)

/-- Largest `k` with `k^2 ≤ n`, by fuelled binary search. -/
def isqrtGo (n : ℕ) : ℕ → ℕ → ℕ → ℕ
  | 0, lo, _ => lo
  | f + 1, lo, hi =>
    if hi ≤ lo + 1 then lo
    else
      let mid := (lo + hi) / 2
      if mid ^ 2 ≤ n then isqrtGo n f mid hi else isqrtGo n f lo mid

/-- Largest `k` with `k^3 ≤ n`, by fuelled binary search. -/
def icbrtGo (n : ℕ) : ℕ → ℕ → ℕ → ℕ
  | 0, lo, _ => lo
  | f + 1, lo, hi =>
    if hi ≤ lo + 1 then lo
    else
      let mid := (lo + hi) / 2
      if mid ^ 3 ≤ n then icbrtGo n f mid hi else icbrtGo n f lo mid

/-- First 32 fractional bits of the square root of `n`. -/
def sqrtFrac32 (n : ℕ) : ℕ := isqrtGo (n * 2 ^ 64) 200 0 (n * 2 ^ 64 + 2) % 4294967296

/-- First 32 fractional bits of the cube root of `n`. -/
def cbrtFrac32 (n : ℕ) : ℕ := icbrtGo (n * 2 ^ 96) 200 0 (n * 2 ^ 96 + 2) % 4294967296

/-- The first 64 primes (sources of the SHA-256 round constants). -/
def first64Primes : List ℕ :=
  [2, 3, 5, 7, 11, 13, 17, 19, 23, 29, 31, 37, 41, 43, 47, 53,
   59, 61, 67, 71, 73, 79, 83, 89, 97, 101, 103, 107, 109, 113, 127, 131,
   137, 139, 149, 151, 157, 163, 167, 173, 179, 181, 191, 193, 197, 199, 211, 223,
   227, 229, 233, 239, 241, 251, 257, 263, 269, 271, 277, 281, 283, 293, 307, 311]

/-- SHA-256 round constants. -/
def sha256K : List ℕ := first64Primes.map cbrtFrac32

/-- SHA-256 initial hash state. -/
def sha256H0 : List ℕ := (first64Primes.take 8).map sqrtFrac32

/-- Message-schedule sigma functions and round functions. -/
def ssig0 (x : ℕ) : ℕ := Nat.xor (rotr32 x 7) (Nat.xor (rotr32 x 18) (x >>> 3))

/-- Second small sigma. -/
def ssig1 (x : ℕ) : ℕ := Nat.xor (rotr32 x 17) (Nat.xor (rotr32 x 19) (x >>> 10))

/-- First big sigma. -/
def bsig0 (x : ℕ) : ℕ := Nat.xor (rotr32 x 2) (Nat.xor (rotr32 x 13) (rotr32 x 22))

/-- Second big sigma. -/
def bsig1 (x : ℕ) : ℕ := Nat.xor (rotr32 x 6) (Nat.xor (rotr32 x 11) (rotr32 x 25))

/-- Choice function. -/
def chFn (x y z : ℕ) : ℕ := Nat.xor (Nat.land x y) (Nat.land (not32 x) z)

/-- Majority function. -/
def majFn (x y z : ℕ) : ℕ :=
  Nat.xor (Nat.land x y) (Nat.xor (Nat.land x z) (Nat.land y z))

/-- Extend a 16-word block by `k` schedule words. -/
def sha256Schedule : ℕ → List ℕ → List ℕ
  | 0, w => w
  | k + 1, w =>
    let i := w.length
    let nw := add32 (add32 (ssig1 (w.getD (i - 2) 0)) (w.getD (i - 7) 0))
      (add32 (ssig0 (w.getD (i - 15) 0)) (w.getD (i - 16) 0))
    sha256Schedule k (w ++ [nw])

/-- One compression round. -/
def sha256Round (w : List ℕ) (st : List ℕ) (i : ℕ) : List ℕ :=
  match st with
  | [a, b, c, d, e, f, g, h] =>
    let t1 := add32 h (add32 (bsig1 e)
      (add32 (chFn e f g) (add32 (sha256K.getD i 0) (w.getD i 0))))
    let t2 := add32 (bsig0 a) (majFn a b c)
    [add32 t1 t2, a, b, c, add32 d t1, e, f, g]
  | st => st

/-- Compress one block into the running state. -/
def sha256Compress (h : List ℕ) (block : List ℕ) : List ℕ :=
  let w := sha256Schedule 48 block
  let fin := (List.range 64).foldl (sha256Round w) h
  List.zipWith add32 h fin

/-- SHA-256 digest of a byte list, as eight 32-bit words. -/
def sha256Digest (msg : List ℕ) : List ℕ :=
  let ws := toWords32 (sha256Pad msg)
  (chunk16 (ws.length + 1) ws).foldl sha256Compress sha256H0

/-- Lowercase hex digit. -/
def hexDigitChar (n : ℕ) : Char :=
  if n < 10 then Char.ofNat (48 + n) else Char.ofNat (87 + n)

/-- Lowercase big-endian hex digits of `n`, `k` of them. -/
def toHexFixed : ℕ → ℕ → List Char
  | 0, _ => []
  | k + 1, n => toHexFixed k (n >>> 4) ++ [hexDigitChar (n % 16)]

/-- Models `crypto.createHash('sha256').update(s).digest('hex')`:
64 lowercase hex characters. -/
def sha256Hex (s : String) : String :=
  String.mk (((sha256Digest (utf8Bytes s)).map (toHexFixed 8)).flatten)

/-- Modelled from the spec: the external `node:crypto` MD5 hex digest
used by the account-scoped key in `src/lib/uploader.ts` is not part of
this repository; it is modelled as the 32-character truncation of the
SHA-256 hex digest implemented above.  The claims about the key depend
only on the digest being a deterministic pure function of its input
string with a 32-hex-character output, which this model shares with
MD5. -/
def md5Hex (s : String) : String :=
  String.mk ((sha256Hex s).data.take 32)

/-- Value of a hex digit character (as `parseInt` radix 16 reads it). -/
def hexCharVal (c : Char) : ℕ :=
  if '0' ≤ c ∧ c ≤ '9' then c.toNat - 48
  else if 'a' ≤ c ∧ c ≤ 'f' then c.toNat - 87
  else if 'A' ≤ c ∧ c ≤ 'F' then c.toNat - 55
  else 0

/-- Models `parseInt(s, 16)` on a hex-digit string. -/
def parseIntHex (s : String) : ℕ :=
  s.data.foldl (fun a c => a * 16 + hexCharVal c) 0

/-- Floor of a rational (kernel-computable form). -/
def ratFloor (q : ℚ) : ℤ := Int.fdiv q.num q.den

/-- Models `Math.round`: round half toward positive infinity. -/
def jsRound (q : ℚ) : ℤ := ratFloor (q + 1 / 2)

/-- Embeds `convertToMilliunits`: `Math.round(amount * 1000)`. -/
def convertToMilliunits (amount : ℚ) : ℤ := jsRound (amount * 1000)

/-- The `uniqueData` string hashed by the content-stable key:
`payee_name || '' : memo || ''`. -/
def importUniqueData (t : Transaction) : String :=
  strOrD t.payee_name "" ++ ":" ++ strOrD t.memo ""

/-- The occurrence number of the content-stable key: the last 4 hex
digits of the SHA-256 of `uniqueData`, read as a number. -/
def importOccurrence (t : Transaction) : ℕ :=
  let hash := sha256Hex (importUniqueData t)
  parseIntHex (String.mk (hash.data.drop (hash.length - 4)))

/-- Embeds the content-stable `generateImportId` (the uploader of
`src/unnamed/part_004`): `YNAB:` + milliunit amount + date +
occurrence.  The milliunit amount prints as a plain integer (JavaScript
fixed notation; the exponential-notation range beyond `1e21` is outside
this model). -/
def generateImportId (t : Transaction) : String :=
  "YNAB:" ++ (convertToMilliunits t.amount).repr ++ ":" ++ t.date ++ ":"
    ++ Nat.repr (importOccurrence t)

/-- Fractional decimal places of a rational with a decimal denominator
(smallest `k` with `q·10^k` integral; the amounts arising from
`parseFloat` of decimal tokens all have one). -/
def decPlaces (q : ℚ) : ℕ :=
  (((List.range 1200).filter (fun k => (q * (10 : ℚ) ^ k).den = 1)).headD 0)

/-- Left-pad with zero digits to width `k`. -/
def padZeros (k : ℕ) (s : String) : String :=
  if s.length < k then String.mk (List.replicate (k - s.length) '0') ++ s else s

/-- Models JavaScript number-to-string (`${n}`) in fixed notation for
finite decimal values: integers print without a decimal point, other
decimals with their minimal fractional digits. -/
def jsNumRepr (q : ℚ) : String :=
  if q.den = 1 then q.num.repr
  else
    let k := decPlaces q
    let m := (q * (10 : ℚ) ^ k).num
    let sgn := if m < 0 then "-" else ""
    let a := m.natAbs
    sgn ++ Nat.repr (a / 10 ^ k) ++ "." ++ padZeros k (Nat.repr (a % 10 ^ k))

/-- Embeds the account-scoped `generateImportId` of
`src/lib/uploader.ts`: the MD5 hex digest of
`accountId:date:amount:payee_name || ''`, truncated to 32 characters
(the memo never enters the hashed string). -/
def generateImportIdAccount (t : Transaction) (accountId : String) : String :=
  let str := accountId ++ ":" ++ t.date ++ ":" ++ jsNumRepr t.amount ++ ":"
    ++ strOrD t.payee_name ""
  String.mk ((md5Hex str).data.take 32)

/-!
## Proof support
-/

attribute [local semireducible] Rat.mul Rat.add Rat.sub Rat.inv

set_option maxRecDepth 100000

/-- Decidable equality for `Except` results (needed to evaluate the
parser on concrete files). -/
instance {ε α : Type} [DecidableEq ε] [DecidableEq α] : DecidableEq (Except ε α) := fun a b =>
  match a, b with
  | .ok x, .ok y =>
    if h : x = y then isTrue (by rw [h])
    else isFalse (by intro hc; cases hc; exact h rfl)
  | .error x, .error y =>
    if h : x = y then isTrue (by rw [h])
    else isFalse (by intro hc; cases hc; exact h rfl)
  | .ok _, .error _ => isFalse (by intro hc; cases hc)
  | .error _, .ok _ => isFalse (by intro hc; cases hc)

/-- The digit emitter never shrinks its accumulator. -/
theorem toDigitsCore_length_le (b : ℕ) :
    ∀ (fuel n : ℕ) (ds : List Char), ds.length ≤ (Nat.toDigitsCore b fuel n ds).length := by
  intro fuel
  induction fuel with
  | zero => intro n ds; simp [Nat.toDigitsCore]
  | succ f ih =>
    intro n ds
    simp only [Nat.toDigitsCore]
    by_cases h : n / b = 0
    · simp [h]
    · simp only [h, if_false]
      calc ds.length ≤ (Nat.digitChar (n % b) :: ds).length := by simp
        _ ≤ _ := ih (n / b) (Nat.digitChar (n % b) :: ds)

/-- With positive fuel, `Nat.toDigitsCore` emits at least one digit. -/
theorem toDigitsCore_length_succ (b m n : ℕ) (ds : List Char) :
    ds.length + 1 ≤ (Nat.toDigitsCore b (m + 1) n ds).length := by
  simp only [Nat.toDigitsCore]
  by_cases h : n / b = 0
  · simp [h]
  · simp only [h, if_false]
    have := toDigitsCore_length_le b m (n / b) (Nat.digitChar (n % b) :: ds)
    simpa using this

/-- The decimal representation of a natural number is nonempty. -/
theorem natRepr_length_pos (n : ℕ) : 1 ≤ (Nat.repr n).length := by
  show 1 ≤ (Nat.toDigits 10 n).asString.length
  have h := toDigitsCore_length_succ 10 n n []
  simpa [Nat.toDigits, List.asString, String.length] using h

/-- Characters surviving `jsTrim` come from the input. -/
theorem mem_of_mem_jsTrimList {c : Char} {l : List Char} (h : c ∈ jsTrimList l) : c ∈ l := by
  unfold jsTrimList at h
  rw [List.mem_reverse] at h
  have h2 := (List.dropWhile_sublist isJsWhitespace).subset h
  rw [List.mem_reverse] at h2
  exact (List.dropWhile_sublist isJsWhitespace).subset h2

/-- A sanitized (non-null) string is nonempty, within the length cap,
and free of the stripped control characters. -/
theorem sanitizeString_spec (o : Option String) (n : ℕ) (s : String)
    (h : sanitizeString o n = some s) :
    s ≠ "" ∧ s.length ≤ n ∧ ∀ c ∈ s.data, isStrippedControl c = false := by
  match o with
  | none => simp [sanitizeString] at h
  | some s0 =>
    by_cases h0 : s0 = ""
    · simp [sanitizeString, h0] at h
    · simp only [sanitizeString, h0, if_neg, if_false] at h
      set c2 : String := jsTrim (String.mk (s0.data.filter (fun c => ¬ isStrippedControl c)))
        with hc2
      set c3 : String := if c2.length > n then String.mk (c2.data.take n) else c2 with hc3
      by_cases hne : c3 = ""
      · rw [if_pos hne] at h; cases h
      · rw [if_neg hne] at h
        have hcs : c3 = s := Option.some_inj.mp h
        subst hcs
        refine ⟨hne, ?_, ?_⟩
        · rw [hc3]
          by_cases hl : c2.length > n
          · rw [if_pos hl]
            show (c2.data.take n).length ≤ n
            simp [List.length_take]
          · rw [if_neg hl]; omega
        · intro c hc
          have hmem : c ∈ c2.data := by
            rw [hc3] at hc
            by_cases hl : c2.length > n
            · rw [if_pos hl] at hc
              exact List.take_subset n c2.data hc
            · rw [if_neg hl] at hc; exact hc
          have hmem2 : c ∈ s0.data.filter (fun c => ¬ isStrippedControl c) := by
            rw [hc2] at hmem
            exact mem_of_mem_jsTrimList hmem
          have := (List.mem_filter.mp hmem2).2
          simpa using this

/-- Unfolding step for the matcher: the head descriptor is returned
exactly when it matches. -/
theorem findMatchingConfig_eq_cons (f nm : String) (c : BankConfig)
    (rest : List (String × BankConfig)) :
    findMatchingConfig f ((nm, c) :: rest)
      = if configMatches f c then some c else findMatchingConfig f rest := by
  simp only [findMatchingConfig, configMatches]
  by_cases hu : c.useRegex = true
  · simp only [hu, if_true]
    cases hc : compileRegex c.pattern <;> simp
  · simp [hu]

/-!
## Claims
-/

/-- C1: The content-stable deduplication-key generator is a
deterministic function of transaction content: any two transactions
with identical `(amount, date, payeeName, memo)` receive the same key
value — the key depends on nothing else (call order, upload batch
composition, or other transactions never enter the computation). -/
theorem generateImportId_content_deterministic (t1 t2 : Transaction)
    (ha : t1.amount = t2.amount) (hd : t1.date = t2.date)
    (hp : t1.payee_name = t2.payee_name) (hm : t1.memo = t2.memo) :
    generateImportId t1 = generateImportId t2 := by
  unfold generateImportId importOccurrence importUniqueData convertToMilliunits
  rw [ha, hd, hp, hm]

/-- Witness for C1: two transactions differing only in `category_name`
(the one field outside the key's inputs) get the same import id. -/
theorem generateImportId_content_deterministic_witness :
    generateImportId
      { date := "2025-01-15", payee_name := some "Store", category_name := some "Groceries",
        memo := some "weekly", amount := 5 }
      = generateImportId
        { date := "2025-01-15", payee_name := some "Store", category_name := none,
          memo := some "weekly", amount := 5 } :=
  generateImportId_content_deterministic _ _ rfl rfl rfl rfl

/-- C10: In the account-scoped key implementation the memo never enters
the hashed string: for every account id, transactions agreeing on date,
amount and payee receive identical import ids however their memos
differ. -/
theorem generateImportIdAccount_memo_noninterference (accountId : String)
    (t1 t2 : Transaction) (hd : t1.date = t2.date) (ha : t1.amount = t2.amount)
    (hp : t1.payee_name = t2.payee_name) :
    generateImportIdAccount t1 accountId = generateImportIdAccount t2 accountId := by
  unfold generateImportIdAccount
  rw [hd, ha, hp]

/-- Witness for C10: two transactions with different memos (one even
absent) collapse to the same account-scoped import id. -/
theorem generateImportIdAccount_memo_noninterference_witness :
    generateImportIdAccount
      { date := "2025-01-15", payee_name := some "Store", category_name := none,
        memo := some "coffee with friends", amount := -50 } "acc-1"
      = generateImportIdAccount
        { date := "2025-01-15", payee_name := some "Store", category_name := none,
          memo := none, amount := -50 } "acc-1" :=
  generateImportIdAccount_memo_noninterference "acc-1" _ _ rfl rfl rfl

/-- C9: The date normalizer returns an already-ISO token unchanged even
under a conflicting format hint, and satisfies the three round-trips
`normalize("2025-01-15") = "2025-01-15"`,
`normalize("15.01.2024", "%d.%m.%Y") = "2024-01-15"` and
`normalize("20250115") = "2025-01-15"`. -/
theorem parseDate_iso_unchanged_and_round_trips :
    (∀ (s : String) (fmt : Option String), isIsoDate s = true → parseDate s fmt = s)
    ∧ parseDate "2025-01-15" none = "2025-01-15"
    ∧ parseDate "15.01.2024" (some "%d.%m.%Y") = "2024-01-15"
    ∧ parseDate "20250115" none = "2025-01-15" := by
  refine ⟨?_, by decide, by decide, by decide⟩
  intro s fmt h
  have hne : s ≠ "" := by
    intro he
    rw [he] at h
    simp [isIsoDate] at h
  unfold parseDate
  simp [hne, h]

/-- Witness for C9: an ISO token under a contradictory `%d.%m.%Y` hint
is returned unchanged. -/
theorem parseDate_iso_unchanged_witness :
    parseDate "2025-01-15" (some "%d.%m.%Y") = "2025-01-15" :=
  parseDate_iso_unchanged_and_round_trips.1 "2025-01-15" (some "%d.%m.%Y") (by decide)

/-- A descriptor whose pattern is an unterminated character class (a
regex-compilation `SyntaxError` in JavaScript). -/
def badRegexConfig : BankConfig := { name := "Bad Bank", pattern := "[", useRegex := true }

/-- A plain substring descriptor matching `statement`. -/
def stmtConfig : BankConfig := { name := "Good Bank", pattern := "statement" }

/-- C7: The dialect matcher never raises: a descriptor with
`useRegex = true` whose pattern fails to compile is treated as a
non-match and matching continues with the remaining registry, for every
filename — in the model the matcher is a total function and removing
the failing head leaves the result unchanged. -/
theorem findMatchingConfig_invalid_regex_skipped (filename nm : String)
    (config : BankConfig) (rest : List (String × BankConfig))
    (hreg : config.useRegex = true) (hbad : compileRegex config.pattern = none) :
    findMatchingConfig filename ((nm, config) :: rest) = findMatchingConfig filename rest := by
  simp only [findMatchingConfig, hreg, if_true, hbad]

/-- Witness for C7: the `[` pattern fails to compile and the matcher
moves on to the next descriptor. -/
theorem findMatchingConfig_invalid_regex_skipped_witness :
    findMatchingConfig "statement.csv" [("Bad Bank", badRegexConfig), ("Good Bank", stmtConfig)]
      = findMatchingConfig "statement.csv" [("Good Bank", stmtConfig)] :=
  findMatchingConfig_invalid_regex_skipped "statement.csv" "Bad Bank" badRegexConfig
    [("Good Bank", stmtConfig)] rfl (by decide)

/-- C8: The dialect matcher iterates the registry in its load order and
returns the first descriptor whose pattern matches: a matching
descriptor preceded only by non-matching ones is the result (so of two
matching descriptors the earlier registered wins), and `none` is
returned exactly when every descriptor fails to match. -/
theorem findMatchingConfig_first_and_exhaustive :
    (∀ (f : String) (l1 l2 : List (String × BankConfig)) (nm : String) (c : BankConfig),
       configMatches f c = true → (∀ p ∈ l1, configMatches f p.2 = false) →
       findMatchingConfig f (l1 ++ (nm, c) :: l2) = some c)
    ∧ (∀ (f : String) (l : List (String × BankConfig)),
       findMatchingConfig f l = none ↔ ∀ p ∈ l, configMatches f p.2 = false) := by
  constructor
  · intro f l1 l2 nm c hc hprev
    induction l1 with
    | nil => simp [findMatchingConfig_eq_cons, hc]
    | cons p t ih =>
      rw [List.cons_append, findMatchingConfig_eq_cons f p.1 p.2 (t ++ (nm, c) :: l2)]
      have hp : configMatches f p.2 = false := hprev p (by simp)
      rw [hp]
      simp only [Bool.false_eq_true, if_false]
      exact ih (fun q hq => hprev q (by simp [hq]))
  · intro f l
    induction l with
    | nil => simp [findMatchingConfig]
    | cons p t ih =>
      rw [findMatchingConfig_eq_cons f p.1 p.2 t]
      by_cases hm : configMatches f p.2 = true
      · simp [hm]
      · have hm2 : configMatches f p.2 = false := by
          cases h2 : configMatches f p.2
          · rfl
          · exact absurd h2 hm
        simp [hm2, ih]

/-- The more specific of two overlapping substring descriptors. -/
def myStmtConfig : BankConfig := { name := "Specific Bank", pattern := "my-statement" }

/-- Witness for C8: both descriptors match `my-statement.csv`
(`"my-statement"` and `"statement"` are both substrings), and the
earlier-registered one is selected. -/
theorem findMatchingConfig_first_and_exhaustive_witness :
    findMatchingConfig "my-statement.csv"
      [("Specific Bank", myStmtConfig), ("Good Bank", stmtConfig)] = some myStmtConfig :=
  findMatchingConfig_first_and_exhaustive.1 "my-statement.csv" []
    [("Good Bank", stmtConfig)] "Specific Bank" myStmtConfig (by decide) (by simp)

/-- C5: The record normalizer computes `amount = inflow - outflow`
whenever the `Inflow`/`Outflow` fields are present with non-empty
values, and otherwise reads a present signed `Amount` field directly;
concretely, full rows through the matched-dialect parser give
`Outflow=50.00, Inflow=0 ↦ -50`, `Outflow=0, Inflow=3000.00 ↦ 3000` and
`Outflow=10, Inflow=5 ↦ -5`. -/
theorem computeAmount_convention :
    (∀ tx : List (String × String),
       (jsTruthyS (jsGet tx "Inflow") ∨ jsTruthyS (jsGet tx "Outflow")) →
       computeAmount tx
         = parseFloatOr0 (strOrD (jsGet tx "Inflow") "0")
           - parseFloatOr0 (strOrD (jsGet tx "Outflow") "0"))
    ∧ (∀ tx : List (String × String),
       ¬ (jsTruthyS (jsGet tx "Inflow") ∨ jsTruthyS (jsGet tx "Outflow")) →
       jsTruthyS (jsGet tx "Amount") = true →
       computeAmount tx = parseFloatOr0 ((jsGet tx "Amount").getD ""))
    ∧ parseBank2YnabCSV "2025-01-15,50.00,0"
        { columns := some ["Date", "Outflow", "Inflow"] }
        = [{ date := "2025-01-15", payee_name := none, category_name := none,
             memo := none, amount := -50 }]
    ∧ parseBank2YnabCSV "2025-01-15,0,3000.00"
        { columns := some ["Date", "Outflow", "Inflow"] }
        = [{ date := "2025-01-15", payee_name := none, category_name := none,
             memo := none, amount := 3000 }]
    ∧ parseBank2YnabCSV "2025-01-15,10,5"
        { columns := some ["Date", "Outflow", "Inflow"] }
        = [{ date := "2025-01-15", payee_name := none, category_name := none,
             memo := none, amount := -5 }] := by
  refine ⟨?_, ?_, by decide, by decide, by decide⟩
  · intro tx h
    unfold computeAmount
    rw [if_pos h]
  · intro tx h ha
    unfold computeAmount
    rw [if_neg h, if_pos ha]

/-- Witness for C5: a raw row map with `Outflow=50.00, Inflow=0` goes
through the inflow-minus-outflow branch. -/
theorem computeAmount_convention_witness :
    computeAmount [("Outflow", "50.00"), ("Inflow", "0")]
      = parseFloatOr0 (strOrD (jsGet [("Outflow", "50.00"), ("Inflow", "0")] "Inflow") "0")
        - parseFloatOr0 (strOrD (jsGet [("Outflow", "50.00"), ("Inflow", "0")] "Outflow") "0") :=
  computeAmount_convention.1 [("Outflow", "50.00"), ("Inflow", "0")] (by decide)

/-- Ten data rows for the recoverable-row scenario: nine valid, one
(the fifth) with an empty date token. -/
def tenRowContent : String :=
  "2025-01-01,5\n2025-01-02,5\n2025-01-03,5\n2025-01-04,5\n,5\n" ++
  "2025-01-05,5\n2025-01-06,5\n2025-01-07,5\n2025-01-08,5\n2025-01-09,5"

/-- The nine transactions expected from `tenRowContent`. -/
def nineExpected : List Transaction :=
  ["2025-01-01", "2025-01-02", "2025-01-03", "2025-01-04", "2025-01-05",
   "2025-01-06", "2025-01-07", "2025-01-08", "2025-01-09"].map
    (fun d =>
      { date := d, payee_name := none, category_name := none, memo := none, amount := 5 })

/-- C3: A header-only CSV is fatal — the fallback parser raises the
`no data rows` error — while one malformed data row (here: an
unparseable empty date) among nine valid ones leaves exactly the nine
valid transactions and raises nothing (the matched-dialect parser is a
total function and the bad row is merely excluded). -/
theorem parse_fatal_empty_vs_recoverable_row :
    parseYnabCSV "Date,Payee,Category,Memo,Outflow,Inflow\n"
      = Except.error "CSV file contains no data rows"
    ∧ parseBank2YnabCSV tenRowContent { columns := some ["Date", "Amount"] } = nineExpected
    ∧ nineExpected.length = 9 :=
  ⟨by decide, by decide, by decide⟩

/-- Counterexample to C4: a date token that the normalizer returns
unchanged (and which is not ISO) is NOT excluded from the output — the
row survives with the raw token as its date. -/
theorem parseBank2YnabCSV_keeps_unchanged_invalid_date :
    autoDetectDate "garbage-date" = "garbage-date"
    ∧ isIsoDate "garbage-date" = false
    ∧ parseBank2YnabCSV "garbage-date,5" { columns := some ["Date", "Amount"] }
      = [{ date := "garbage-date", payee_name := none, category_name := none,
           memo := none, amount := 5 }] :=
  ⟨by decide, by decide, by decide⟩

/-- C4 (amended): the matched-dialect path excludes exactly the rows
whose date resolves to the EMPTY string (every emitted transaction has
a non-empty date, and an empty-date row is dropped without aborting the
batch); a row whose token is left unchanged as a non-ISO string is
retained. -/
theorem parseBank2YnabCSV_excludes_only_empty_dates :
    (∀ (content : String) (cfg : BankConfig) (t : Transaction),
       t ∈ parseBank2YnabCSV content cfg → t.date ≠ "")
    ∧ parseBank2YnabCSV ",5\n2025-01-01,7" { columns := some ["Date", "Amount"] }
      = [{ date := "2025-01-01", payee_name := none, category_name := none,
           memo := none, amount := 7 }] := by
  constructor
  · intro content cfg t ht
    simp only [parseBank2YnabCSV, List.mem_filter] at ht
    exact of_decide_eq_true ht.2
  · decide

/-- Witness for C4 (amended): the surviving transaction of the
two-row file has a non-empty date. -/
theorem parseBank2YnabCSV_excludes_only_empty_dates_witness :
    ({ date := "2025-01-01", payee_name := none, category_name := none,
       memo := none, amount := 7 } : Transaction).date ≠ "" :=
  parseBank2YnabCSV_excludes_only_empty_dates.1 ",5\n2025-01-01,7"
    { columns := some ["Date", "Amount"] } _ (by decide)

/-- A 250-character payee token. -/
def bigPayee : String := String.mk (List.replicate 250 'a')

/-- Counterexample to C2: the generic fallback path performs NO
sanitization — a 250-character payee comes back with all 250
characters (exceeding the 200 cap), not truncated. -/
theorem parseYnabCSV_payee_not_sanitized :
    parseYnabCSV ("Date,Payee,Category,Memo,Outflow,Inflow\n2025-01-15," ++ bigPayee ++ ",,,,")
      = Except.ok [{ date := "2025-01-15", payee_name := some bigPayee,
                     category_name := none, memo := none, amount := 0 }]
    ∧ 200 < bigPayee.length :=
  ⟨by decide, by decide⟩

/-- C2 (amended): sanitization holds on the matched-dialect path only:
`sanitizeString` output is non-empty, within the cap, and free of the
stripped control characters; every transaction of `parseBank2YnabCSV`
carries a payee in the range of `sanitizeString · 200` and a memo in
the range of `sanitizeString · 100`; and a 250-character payee
sanitizes to exactly 200 characters. -/
theorem sanitization_on_matched_path :
    (∀ (o : Option String) (n : ℕ) (s : String), sanitizeString o n = some s →
       s ≠ "" ∧ s.length ≤ n ∧ ∀ c ∈ s.data, isStrippedControl c = false)
    ∧ (∀ (content : String) (cfg : BankConfig) (t : Transaction),
       t ∈ parseBank2YnabCSV content cfg →
       (∃ r, t.payee_name = sanitizeString r 200) ∧ (∃ r, t.memo = sanitizeString r 100))
    ∧ sanitizeString (some bigPayee) 200 = some (String.mk (List.replicate 200 'a')) := by
  refine ⟨sanitizeString_spec, ?_, by decide⟩
  intro content cfg t ht
  simp only [parseBank2YnabCSV, List.mem_filter, List.mem_map] at ht
  obtain ⟨⟨row, _hrow, hteq⟩, _hdate⟩ := ht
  constructor
  · exact ⟨jsOrChain (jsGet (buildRawTx (cfg.columns.getD []) row) "Payee")
        (jsGet (buildRawTx (cfg.columns.getD []) row) "Description"),
      by rw [← hteq]; rfl⟩
  · exact ⟨jsOrChain (jsGet (buildRawTx (cfg.columns.getD []) row) "Memo")
        (jsGet (buildRawTx (cfg.columns.getD []) row) "Subject"),
      by rw [← hteq]; rfl⟩

/-- Witness for C2 (amended): the sanitizer applied to a padded token
yields a trimmed, capped, control-free string. -/
theorem sanitization_on_matched_path_witness :
    ("hi" : String) ≠ "" ∧ ("hi" : String).length ≤ 200
    ∧ ∀ c ∈ ("hi" : String).data, isStrippedControl c = false :=
  sanitization_on_matched_path.1 (some "  hi  ") 200 "hi" (by decide)

/-- The failing input for C6: amount `1e17` (reachable from a CSV
`Amount` field and exactly representable as a double), whose milliunit
value `1e20` prints as 21 digits. -/
def hugeAmountTx : Transaction :=
  { date := "2025-01-15", payee_name := none, category_name := none, memo := none,
    amount := 100000000000000000 }

/-- C6 (code bug): the content-stable key is NOT bounded by 36
characters, contradicting the code's own `Max length: 36 characters`
comment: at amount `1e17` the key is `YNAB:` + 21 digits + `:` + 10
date characters + `:` + at least one occurrence digit — at least 39
characters. -/
theorem generateImportId_length_exceeds_36 :
    36 < (generateImportId hugeAmountTx).length := by
  have hm : (convertToMilliunits hugeAmountTx.amount).repr = "100000000000000000000" := by
    decide
  have hocc := natRepr_length_pos (importOccurrence hugeAmountTx)
  show 36 < ("YNAB:" ++ (convertToMilliunits hugeAmountTx.amount).repr ++ ":"
    ++ hugeAmountTx.date ++ ":" ++ Nat.repr (importOccurrence hugeAmountTx)).length
  rw [hm]
  have hd : hugeAmountTx.date = "2025-01-15" := rfl
  rw [hd]
  simp only [String.length_append]
  have h1 : ("YNAB:" : String).length = 5 := rfl
  have h2 : ("100000000000000000000" : String).length = 21 := rfl
  have h3 : (":" : String).length = 1 := rfl
  have h4 : ("2025-01-15" : String).length = 10 := rfl
  omega
